import Mathlib

/-!
# stm8L050_ADC_RGBW : `main.c`

A shallow embedding of the time base (`uptime`, `delay_time`, `z`,
`uptime_routine`, `_delay_ms`) and of the control loop of `main` in
`src/main.c`.

Machine integers are natural numbers reduced explicitly: `u32` arithmetic is
taken modulo `2^32`, `u8` arithmetic modulo `2^8`.  The busy-wait of
`_delay_ms` has an empty body; the only thing that changes the variables it
tests is the tick interrupt, so the loop is modelled as "test the condition,
and if it holds let one tick happen and test again", counting the ticks.  Every
test of the loop is assumed to read the current value of `uptime` as a whole; the
source does not declare the two variables `volatile`, so this holds only for a
build that re-reads them.

The statement `delay_time = uptime + wait;` runs with the tick interrupt enabled
(`enableInterrupts()` precedes the loop of `main`).  `delay_arm` is the statement
when no tick lands inside it; `delay_arm_preempted` is the statement when ticks
land between the load of `uptime` and the store of `delay_time`.
-/

namespace Stm8RGBW

/-! ## Time base (`main.c` lines 170-202) -/

/-- Number of values of a `u32`. -/
def U32 : Nat := 4294967296

/-- Number of values of a `u8`. -/
def U8 : Nat := 256

/-- The file-scope variables `uptime`, `delay_time` (both `u32`) and `z` (`u8`). -/
structure TimeBase where
  uptime : Nat
  delay_time : Nat
  z : Nat
  deriving DecidableEq, Repr

/-- The values the three variables are initialised with (all `0`). -/
def TimeBase.init : TimeBase := { uptime := 0, delay_time := 0, z := 0 }

/-- The function `uptime_routine`: `uptime++`, then the reset of `uptime` and
`delay_time` when the incremented value is `0xFFFFFFFF`, then `z++` and the reset of
`z` at `250`. -/
def uptime_routine (s : TimeBase) : TimeBase :=
  let up := (s.uptime + 1) % U32
  let s1 : TimeBase :=
    if up = 0xFFFFFFFF then { s with delay_time := 0, uptime := 0 }
    else { s with uptime := up }
  let z1 := (s1.z + 1) % U8
  if z1 = 250 then { s1 with z := 0 } else { s1 with z := z1 }

/-- The first statement of `_delay_ms`: `delay_time = uptime + wait;` in `u32`, when no
tick lands between the load of `uptime` and the store of `delay_time`. -/
def delay_arm (s : TimeBase) (wait : Nat) : TimeBase :=
  { s with delay_time := (s.uptime + wait) % U32 }

/-- The loop `while(delay_time > uptime){}` of `_delay_ms`, with the tick interrupt as
the only thing that happens while it spins.  The result is the number of calls of
`uptime_routine` that occurred before the condition was found false, with the state at
that moment; `none` when `fuel` ticks did not make the condition false. -/
def busy_wait : Nat → TimeBase → Option (Nat × TimeBase)
  | 0, s => if s.delay_time > s.uptime then none else some (0, s)
  | fuel + 1, s =>
    if s.delay_time > s.uptime then
      (busy_wait fuel (uptime_routine s)).map (fun r => (r.1 + 1, r.2))
    else some (0, s)

/-- The function `_delay_ms(wait)`, run with at most `fuel` ticks available. -/
def _delay_ms (fuel : Nat) (s : TimeBase) (wait : Nat) : Option (Nat × TimeBase) :=
  busy_wait fuel (delay_arm s wait)

/-- The first statement of `_delay_ms` when `pre` ticks land between the load of `uptime`
and the store of `delay_time`: the sum is formed from the value loaded, the ticks
happen, and the store then overwrites whatever the ticks left in `delay_time`. -/
def delay_arm_preempted (pre : Nat) (s : TimeBase) (wait : Nat) : TimeBase :=
  let sum := (s.uptime + wait) % U32
  let s1 := uptime_routine^[pre] s
  { s1 with delay_time := sum }

/-- The function `_delay_ms(wait)` with `pre` ticks landing inside its first statement
and at most `fuel` ticks available to the loop.  The number returned counts the ticks of
the loop only. -/
def _delay_ms_preempted (fuel pre : Nat) (s : TimeBase) (wait : Nat) :
    Option (Nat × TimeBase) :=
  busy_wait fuel (delay_arm_preempted pre s wait)

/-- What can happen to the time base: a tick, or the arming of a delay. -/
inductive TimeAction where
  | tick
  | arm (wait : Nat)
  deriving DecidableEq, Repr

/-- One action applied to the time base. -/
def TimeAction.apply (s : TimeBase) : TimeAction → TimeBase
  | .tick => uptime_routine s
  | .arm wait => delay_arm s wait

/-- A sequence of actions applied to the time base, first action first. -/
def run_actions (s : TimeBase) (acts : List TimeAction) : TimeBase :=
  acts.foldl TimeAction.apply s

/-! ## Control loop (`main.c` lines 48-85) -/

/-- The colour type `RGBColor_t` of `ws2812B_fx.h`, which is not part of the sources at
hand: four `uint8_t` channels, named as `main` names them. -/
structure RGBColor_t where
  R : Nat
  G : Nat
  B : Nat
  W : Nat
  deriving DecidableEq, Repr

/-- The calls `main` makes after the hardware bring-up, as observable events. -/
inductive Call where
  | rgb_SetColor (id : Nat) (color : RGBColor_t)
  | rgb_SendArray
  | delay_ms (wait : Nat)
  deriving DecidableEq, Repr

/-- The local variables of `main`: `foo` and the `uint32_t` counter `cnt`. -/
structure MainState where
  foo : RGBColor_t
  cnt : Nat
  deriving DecidableEq, Repr

/-- The statements of `main` between `ADC_Config()` and the loop (lines 58-65): the
locals they leave behind and the calls they make, in order. -/
def main_startup : MainState × List Call :=
  let foo : RGBColor_t := { R := 0, G := 0, B := 0, W := 0 }
  ({ foo := foo, cnt := 0 }, [Call.rgb_SetColor 0 foo, Call.rgb_SendArray])

/-- The value of `++cnt` on the `uint32_t` counter. -/
def cnt_incr (cnt : Nat) : Nat := (cnt + 1) % U32

/-- The byte stored by `foo.W = ++cnt%48`, as a function of the value `++cnt` has. -/
def fade (cnt : Nat) : Nat := (cnt % 48) % U8

/-- The byte stored by `foo.R = (uint8_t) ADCdata`. -/
def red_of_sample (ADCdata : Nat) : Nat := ADCdata % U8

/-- One pass through the body of `while(1)` (lines 70-81), reading `ADCdata` once: the
locals it leaves behind and the calls it makes, in order. -/
def main_loop_body (s : MainState) (ADCdata : Nat) : MainState × List Call :=
  let foo1 : RGBColor_t := { s.foo with R := 0 }
  let cnt1 := cnt_incr s.cnt
  let foo2 : RGBColor_t := { foo1 with W := fade cnt1 }
  let foo3 : RGBColor_t := { foo2 with R := red_of_sample ADCdata }
  let foo4 : RGBColor_t := { foo3 with W := 0 }
  ({ foo := foo4, cnt := cnt1 },
    [Call.rgb_SetColor 0 foo2, Call.rgb_SetColor 7 foo4, Call.rgb_SendArray, Call.delay_ms 10])

/-- The locals of `main` after `n` passes through the loop, when pass `i` (counted from
1) reads the sample `samples i`. -/
def main_state_after (samples : Nat → Nat) : Nat → MainState
  | 0 => main_startup.1
  | n + 1 => (main_loop_body (main_state_after samples n) (samples (n + 1))).1

/-- The calls made by pass `n` (counted from 1) through the loop. -/
def main_iteration (samples : Nat → Nat) (n : Nat) : List Call :=
  (main_loop_body (main_state_after samples (n - 1)) (samples n)).2

/-! ## Frame buffer (`ws2812B_fx`, not part of the sources at hand) -/

/-- Modelled from the spec: the strip length `N` of the frame buffer, a compile-time
constant of `ws2812B_fx.h`; the spec's scenarios use `N = 8`. -/
def NB_LEDS : Nat := 8

/-- Modelled from the spec: the frame buffer of `ws2812B_fx.c`, "every Color is {0,0,0,0}
(strip dark) until first set". -/
def FrameBuffer.init : List RGBColor_t :=
  List.replicate NB_LEDS { R := 0, G := 0, B := 0, W := 0 }

/-- Modelled from the spec: `rgb_SetColor` of `ws2812B_fx.c`, the spec's
`FrameBuffer.set(index, color)`: "fails with IndexOutOfRange if index >= N; otherwise
replaces the Color at that position". -/
def FrameBuffer.set (fb : List RGBColor_t) (index : Nat) (color : RGBColor_t) :
    Option (List RGBColor_t) :=
  if index ≥ NB_LEDS then none else some (List.set fb index color)

/-- Modelled from the spec: the effect of a sequence of calls on the frame buffer.  The
result is the buffer after the calls and the frames handed to `rgb_SendArray`, oldest
first (the spec's `all()` view at the moment of each transmission). -/
def play_calls : List RGBColor_t → List Call → Option (List RGBColor_t × List (List RGBColor_t))
  | fb, [] => some (fb, [])
  | fb, Call.rgb_SetColor id color :: rest =>
    match FrameBuffer.set fb id color with
    | none => none
    | some fb1 => play_calls fb1 rest
  | fb, Call.rgb_SendArray :: rest =>
    match play_calls fb rest with
    | none => none
    | some (fb1, frames) => some (fb1, fb :: frames)
  | fb, Call.delay_ms _ :: rest => play_calls fb rest

/-! ## Lemmas on the time base -/

theorem uptime_routine_uptime (s : TimeBase) :
    (uptime_routine s).uptime =
      if (s.uptime + 1) % U32 = 0xFFFFFFFF then 0 else (s.uptime + 1) % U32 := by
  unfold uptime_routine
  simp only []
  split_ifs <;> rfl

theorem uptime_routine_delay_time (s : TimeBase) :
    (uptime_routine s).delay_time =
      if (s.uptime + 1) % U32 = 0xFFFFFFFF then 0 else s.delay_time := by
  unfold uptime_routine
  simp only []
  split_ifs <;> rfl

theorem delay_arm_uptime (s : TimeBase) (wait : Nat) : (delay_arm s wait).uptime = s.uptime :=
  rfl

theorem delay_arm_delay_time (s : TimeBase) (wait : Nat) :
    (delay_arm s wait).delay_time = (s.uptime + wait) % U32 :=
  rfl

/-- A tick never leaves `uptime` at `0xFFFFFFFF`, and leaves it below `2^32`. -/
theorem uptime_routine_uptime_le (s : TimeBase) : (uptime_routine s).uptime ≤ 0xFFFFFFFE := by
  rw [uptime_routine_uptime]
  have h : (s.uptime + 1) % U32 < U32 := Nat.mod_lt _ (by decide)
  unfold U32 at h ⊢
  split_ifs with h1 <;> omega

/-- The loop is not entered when the condition is false at the first test. -/
theorem busy_wait_done (fuel : Nat) (s : TimeBase) (h : ¬ s.delay_time > s.uptime) :
    busy_wait fuel s = some (0, s) := by
  cases fuel <;> simp [busy_wait, h]

/-- One turn of the loop when the condition holds. -/
theorem busy_wait_spin (fuel : Nat) (s : TimeBase) (h : s.delay_time > s.uptime) :
    busy_wait (fuel + 1) s =
      (busy_wait fuel (uptime_routine s)).map (fun r => (r.1 + 1, r.2)) := by
  simp [busy_wait, h]

/-- A deadline `m` ticks ahead that does not exceed `0xFFFFFFFF` is met after exactly `m`
ticks, whatever fuel beyond `m` is given: the loop returns the state those `m` ticks
produce, and the condition is false there. -/
theorem busy_wait_exact (m : Nat) : ∀ (fuel : Nat) (s : TimeBase), m ≤ fuel →
    s.uptime + m = s.delay_time → s.delay_time ≤ 0xFFFFFFFF →
    busy_wait fuel s = some (m, uptime_routine^[m] s) ∧
      ¬ (uptime_routine^[m] s).delay_time > (uptime_routine^[m] s).uptime := by
  induction m with
  | zero =>
    intro fuel s _ hd _
    have h : ¬ s.delay_time > s.uptime := by omega
    exact ⟨busy_wait_done fuel s h, h⟩
  | succ m ih =>
    intro fuel s hf hd hmax
    obtain ⟨f, rfl⟩ : ∃ f, fuel = f + 1 := ⟨fuel - 1, by omega⟩
    have hgt : s.delay_time > s.uptime := by omega
    rw [busy_wait_spin f s hgt, Function.iterate_succ_apply]
    have hmod : (s.uptime + 1) % U32 = s.uptime + 1 :=
      Nat.mod_eq_of_lt (by unfold U32; omega)
    by_cases hreset : s.uptime + 1 = 0xFFFFFFFF
    · have hm : m = 0 := by omega
      subst hm
      have hu : (uptime_routine s).uptime = 0 := by
        rw [uptime_routine_uptime, hmod, if_pos hreset]
      have hdt : (uptime_routine s).delay_time = 0 := by
        rw [uptime_routine_delay_time, hmod, if_pos hreset]
      have h : ¬ (uptime_routine s).delay_time > (uptime_routine s).uptime := by omega
      exact ⟨by rw [busy_wait_done f _ h]; rfl, h⟩
    · have hu : (uptime_routine s).uptime = s.uptime + 1 := by
        rw [uptime_routine_uptime, hmod, if_neg hreset]
      have hdt : (uptime_routine s).delay_time = s.delay_time := by
        rw [uptime_routine_delay_time, hmod, if_neg hreset]
      obtain ⟨ht, hfin⟩ := ih f (uptime_routine s) (by omega) (by omega) (by omega)
      exact ⟨by rw [ht]; rfl, hfin⟩

/-- A deadline `m` ticks ahead that does not exceed `0xFFFFFFFF` is not met by fewer than
`m` ticks. -/
theorem busy_wait_none : ∀ (fuel m : Nat) (s : TimeBase), fuel < m →
    s.uptime + m = s.delay_time → s.delay_time ≤ 0xFFFFFFFF → busy_wait fuel s = none := by
  intro fuel
  induction fuel with
  | zero =>
    intro m s hf hd _
    have hgt : s.delay_time > s.uptime := by omega
    simp [busy_wait, hgt]
  | succ f ih =>
    intro m s hf hd hmax
    have hgt : s.delay_time > s.uptime := by omega
    have hmod : (s.uptime + 1) % U32 = s.uptime + 1 :=
      Nat.mod_eq_of_lt (by unfold U32; omega)
    have hreset : ¬ s.uptime + 1 = 0xFFFFFFFF := by omega
    have hu : (uptime_routine s).uptime = s.uptime + 1 := by
      rw [uptime_routine_uptime, hmod, if_neg hreset]
    have hdt : (uptime_routine s).delay_time = s.delay_time := by
      rw [uptime_routine_delay_time, hmod, if_neg hreset]
    rw [busy_wait_spin f s hgt, ih (m - 1) (uptime_routine s) (by omega) (by omega) (by omega)]
    rfl

/-- The delay with no tick inside its first statement: for a 32-bit `uptime` `u` and a
16-bit wait `k`, given at least `k` ticks, `_delay_ms(k)` returns after exactly `k` ticks
when `u + k` fits in 32 bits and after `0` ticks when it does not, in the state those
ticks produce from the armed one. -/
theorem delay_ms_atomic (fuel u dt z k : Nat) (hu : u < U32) (hk : k < 65536)
    (hfuel : k ≤ fuel) :
    _delay_ms fuel { uptime := u, delay_time := dt, z := z } k =
      some (if u + k < U32 then k else 0,
        uptime_routine^[if u + k < U32 then k else 0]
          (delay_arm { uptime := u, delay_time := dt, z := z } k)) := by
  unfold U32 at hu
  by_cases hsum : u + k < U32
  · rw [if_pos hsum]
    have hd : (delay_arm { uptime := u, delay_time := dt, z := z } k).delay_time = u + k := by
      rw [delay_arm_delay_time]
      show (u + k) % U32 = u + k
      exact Nat.mod_eq_of_lt hsum
    unfold U32 at hsum
    exact (busy_wait_exact k fuel _ hfuel (by rw [hd]; rfl) (by rw [hd]; omega)).1
  · rw [if_neg hsum]
    unfold U32 at hsum
    have hd : (delay_arm { uptime := u, delay_time := dt, z := z } k).delay_time =
        u + k - 4294967296 := by
      rw [delay_arm_delay_time]
      show (u + k) % U32 = u + k - 4294967296
      unfold U32
      omega
    have hstop : ¬ (delay_arm { uptime := u, delay_time := dt, z := z } k).delay_time >
        (delay_arm { uptime := u, delay_time := dt, z := z } k).uptime := by
      rw [hd, delay_arm_uptime]
      show ¬ u + k - 4294967296 > u
      omega
    exact busy_wait_done fuel _ hstop

/-- With no tick inside the first statement the two models of `_delay_ms` agree. -/
theorem delay_ms_preempted_zero (fuel : Nat) (s : TimeBase) (wait : Nat) :
    _delay_ms_preempted fuel 0 s wait = _delay_ms fuel s wait :=
  rfl

theorem delay_arm_preempted_uptime (pre : Nat) (s : TimeBase) (wait : Nat) :
    (delay_arm_preempted pre s wait).uptime = (uptime_routine^[pre] s).uptime :=
  rfl

theorem delay_arm_preempted_delay_time (pre : Nat) (s : TimeBase) (wait : Nat) :
    (delay_arm_preempted pre s wait).delay_time = (s.uptime + wait) % U32 :=
  rfl

/-- The state in which the loop of `_delay_ms(1)` starts when it is called at
`uptime = 0xFFFFFFFE` and one tick lands inside its first statement: the tick has reset
`uptime` to `0`, and the store has put the deadline `0xFFFFFFFF` over the reset one. -/
theorem delay_arm_preempted_at_reset (dt z : Nat) :
    (delay_arm_preempted 1 { uptime := 4294967294, delay_time := dt, z := z } 1).uptime = 0 ∧
      (delay_arm_preempted 1 { uptime := 4294967294, delay_time := dt, z := z } 1).delay_time =
        4294967295 := by
  constructor
  · rw [delay_arm_preempted_uptime, Function.iterate_one]
    simp [uptime_routine_uptime, U32]
  · rw [delay_arm_preempted_delay_time]
    simp [U32]

/-- The value of `uptime` after `n` ticks from the initial state. -/
theorem uptime_after_ticks (n : Nat) :
    (uptime_routine^[n] TimeBase.init).uptime = n % 0xFFFFFFFF := by
  induction n with
  | zero => rfl
  | succ n ih =>
    rw [Function.iterate_succ_apply', uptime_routine_uptime, ih]
    have h : n % 0xFFFFFFFF < 0xFFFFFFFF := Nat.mod_lt _ (by decide)
    have hmod : (n % 0xFFFFFFFF + 1) % U32 = n % 0xFFFFFFFF + 1 :=
      Nat.mod_eq_of_lt (by unfold U32; omega)
    rw [hmod]
    split_ifs with h1
    · have : (n + 1) % 0xFFFFFFFF = 0 := by omega
      omega
    · omega

/-- The value `0xFFFFFFFE` of `uptime` is reached from the initial state by ticks. -/
theorem uptime_reaches_last_value :
    ∃ n, (uptime_routine^[n] TimeBase.init).uptime = 4294967294 :=
  ⟨4294967294, (uptime_after_ticks 4294967294).trans (by norm_num)⟩

/-- No sequence of ticks and delay armings takes `uptime` above `0xFFFFFFFE`. -/
theorem run_actions_uptime_le (acts : List TimeAction) : ∀ (s : TimeBase),
    s.uptime ≤ 0xFFFFFFFE → (run_actions s acts).uptime ≤ 0xFFFFFFFE := by
  induction acts with
  | nil => intro s h; exact h
  | cons a rest ih =>
    intro s h
    have step : (TimeAction.apply s a).uptime ≤ 0xFFFFFFFE := by
      cases a with
      | tick => exact uptime_routine_uptime_le s
      | arm wait => exact h
    exact ih _ step

/-! ## Lemmas on the control loop -/

/-- The counter after `k` increments, with the wrap of `uint32_t`. -/
theorem cnt_incr_iterate (k c : Nat) (hc : c < U32) : cnt_incr^[k] c = (c + k) % U32 := by
  induction k with
  | zero => exact (Nat.mod_eq_of_lt hc).symm
  | succ k ih =>
    rw [Function.iterate_succ_apply', ih]
    unfold cnt_incr
    rw [Nat.mod_add_mod]
    rfl

/-- After `n < 2^32` passes the counter holds `n`, and `foo.G`, `foo.B` are still `0`. -/
theorem main_state_after_inv (samples : Nat → Nat) (n : Nat) (hn : n < U32) :
    (main_state_after samples n).cnt = n ∧ (main_state_after samples n).foo.G = 0 ∧
      (main_state_after samples n).foo.B = 0 := by
  induction n with
  | zero => exact ⟨rfl, rfl, rfl⟩
  | succ n ih =>
    obtain ⟨hcnt, hG, hB⟩ := ih (by omega)
    refine ⟨?_, ?_, ?_⟩
    · show cnt_incr (main_state_after samples n).cnt = n + 1
      rw [hcnt]
      exact Nat.mod_eq_of_lt hn
    · exact hG
    · exact hB

/-- After a pass, `foo.R` holds the low byte of the sample the pass read. -/
theorem main_state_after_R (samples : Nat → Nat) (n : Nat) :
    (main_state_after samples (n + 1)).foo.R = samples (n + 1) % 256 :=
  rfl

/-! ## The time base: claims -/

/-- C1 (the code departs from it): `_delay_ms(k)` with `k > 0` should not return before
`k` ticks have occurred.  The state `uptime = 0xFFFFFFFE` is reached from the initial
state by ticks (`0xFFFFFFFE` of them), and `_delay_ms(10)` called there computes the deadline
`(0xFFFFFFFE + 10) mod 2^32 = 8`, finds `8 > 0xFFFFFFFE` false at the first test and
returns after `0` ticks, whatever the fuel and the other variables are. -/
theorem delay_ms_returns_early_at_overflow :
    (∃ n, (uptime_routine^[n] TimeBase.init).uptime = 4294967294) ∧
      ∀ (fuel dt z : Nat),
        _delay_ms fuel { uptime := 4294967294, delay_time := dt, z := z } 10 =
          some (0, { uptime := 4294967294, delay_time := 8, z := z }) := by
  refine ⟨uptime_reaches_last_value, ?_⟩
  intro fuel dt z
  have harm : delay_arm { uptime := 4294967294, delay_time := dt, z := z } 10 =
      { uptime := 4294967294, delay_time := 8, z := z } := by
    have h : (4294967294 + 10) % U32 = 8 := by decide
    exact congrArg (fun d => TimeBase.mk 4294967294 d z) h
  unfold _delay_ms
  rw [harm]
  exact busy_wait_done fuel _ (by simp)

/-- C2 as stated fails: `uptime = 0xFFFFFFFE` is below the maximum `0xFFFFFFFF`, yet one
call of `uptime_routine` leaves `uptime` at `0`, not at `0xFFFFFFFF`. -/
theorem uptime_increment_counterexample :
    ¬ ∀ s : TimeBase, s.uptime < 0xFFFFFFFF → (uptime_routine s).uptime = s.uptime + 1 := by
  intro h
  have h1 := h { uptime := 4294967294, delay_time := 0, z := 0 } (by decide)
  revert h1
  decide

/-- C2 (amended): for every state whose `uptime` is below `0xFFFFFFFE`, so that the
incremented value is not `0xFFFFFFFF`, one call of `uptime_routine` leaves `uptime`
exactly one greater than it was before the call. -/
theorem uptime_routine_increments (s : TimeBase) (h : s.uptime < 0xFFFFFFFE) :
    (uptime_routine s).uptime = s.uptime + 1 := by
  have hmod : (s.uptime + 1) % U32 = s.uptime + 1 := Nat.mod_eq_of_lt (by unfold U32; omega)
  rw [uptime_routine_uptime, hmod, if_neg (by omega)]

/-- Witness of C2 (amended) at `uptime = 41`. -/
theorem uptime_routine_increments_witness :
    (41 : Nat) < 0xFFFFFFFE ∧
      (uptime_routine { uptime := 41, delay_time := 7, z := 249 }).uptime = 41 + 1 :=
  ⟨by decide, uptime_routine_increments { uptime := 41, delay_time := 7, z := 249 } (by decide)⟩

/-- C6: for every 32-bit `uptime` value `u`, `_delay_ms(0)` called when `uptime = u`
leaves its loop at the first test, after `0` ticks and even with no tick available: the
deadline is `u` and `u > u` is false. -/
theorem delay_ms_zero (fuel u dt z : Nat) (hu : u < U32) :
    _delay_ms fuel { uptime := u, delay_time := dt, z := z } 0 =
      some (0, { uptime := u, delay_time := u, z := z }) := by
  have harm : delay_arm { uptime := u, delay_time := dt, z := z } 0 =
      { uptime := u, delay_time := u, z := z } := by
    unfold delay_arm
    simp only [Nat.add_zero, Nat.mod_eq_of_lt hu]
  unfold _delay_ms
  rw [harm]
  exact busy_wait_done fuel _ (by simp)

/-- Witness of C6 at `uptime = 1000`, with no tick available. -/
theorem delay_ms_zero_witness :
    (1000 : Nat) < U32 ∧
      _delay_ms 0 { uptime := 1000, delay_time := 3, z := 17 } 0 =
        some (0, { uptime := 1000, delay_time := 1000, z := 17 }) :=
  ⟨by decide, delay_ms_zero 0 1000 3 17 (by decide)⟩

/-- C9 (the code departs from it): the busy-wait of `_delay_ms(k)` should end after at
most `k` ticks and never hang across the counter reset.  The state `uptime = 0xFFFFFFFE`
is reached from the initial state by ticks.  `_delay_ms(1)` called there, with the reset
tick landing between the load of `uptime` and the store of `delay_time`, starts its loop
at `uptime = 0` with the deadline `0xFFFFFFFF`: the loop has not ended after any number
of ticks up to `0xFFFFFFFE`, and ends after exactly `0xFFFFFFFF` ticks, at the next
reset, whatever the other variables are. -/
theorem delay_ms_hangs_across_reset :
    (∃ n, (uptime_routine^[n] TimeBase.init).uptime = 4294967294) ∧
      ∀ (dt z fuel : Nat),
        _delay_ms_preempted (min fuel 4294967294) 1
            { uptime := 4294967294, delay_time := dt, z := z } 1 = none ∧
          ∃ t, _delay_ms_preempted (4294967295 + fuel) 1
              { uptime := 4294967294, delay_time := dt, z := z } 1 = some (4294967295, t) ∧
            ¬ t.delay_time > t.uptime := by
  refine ⟨uptime_reaches_last_value, ?_⟩
  intro dt z fuel
  obtain ⟨hu, hd⟩ := delay_arm_preempted_at_reset dt z
  constructor
  · exact busy_wait_none (min fuel 4294967294) 4294967295 _ (by omega)
      (by rw [hu, hd]) (by rw [hd])
  · exact ⟨_, busy_wait_exact 4294967295 (4294967295 + fuel) _ (by omega)
      (by rw [hu, hd]) (by rw [hd])⟩

/-- C10: after any call of `uptime_routine`, from every prior state, `uptime` is not
`0xFFFFFFFF`; every state reached from the initial one by ticks and delay armings has
`uptime` in `[0, 0xFFFFFFFE]`; the tick at `uptime = 0xFFFFFFFE` sets `uptime` and
`delay_time` to `0`; and after `n` ticks from the initial state `uptime` is
`n mod (2^32 - 1)`, so the counter has period `2^32 - 1`. -/
theorem uptime_never_max :
    (∀ s : TimeBase, (uptime_routine s).uptime ≠ 0xFFFFFFFF) ∧
    (∀ acts : List TimeAction, (run_actions TimeBase.init acts).uptime ≤ 0xFFFFFFFE) ∧
    (∀ dt z : Nat,
      (uptime_routine { uptime := 0xFFFFFFFE, delay_time := dt, z := z }).uptime = 0 ∧
        (uptime_routine { uptime := 0xFFFFFFFE, delay_time := dt, z := z }).delay_time = 0) ∧
    (∀ n : Nat, (uptime_routine^[n] TimeBase.init).uptime = n % (2 ^ 32 - 1)) := by
  refine ⟨fun s => ?_, fun acts => ?_, fun dt z => ⟨?_, ?_⟩, fun n => ?_⟩
  · have := uptime_routine_uptime_le s
    omega
  · exact run_actions_uptime_le acts TimeBase.init (by decide)
  · simp [uptime_routine_uptime, U32]
  · simp [uptime_routine_delay_time, U32]
  · exact uptime_after_ticks n

/-! ## The control loop: claims -/

/-- C4 as stated fails: at the counter value `0xFFFFFFFF` the fade value is
`0xFFFFFFFF mod 48 = 15`, while 48 increments later the counter has wrapped to `47` and
the fade value is `47`. -/
theorem fade_period_counterexample :
    ¬ ∀ c : Nat, c < U32 → fade (cnt_incr^[48] c) = fade c := by
  intro h
  have h1 := h 4294967295 (by decide)
  revert h1
  decide

/-- C4 (amended): for every value `c` of the 32-bit counter with `c + 48 < 2^32`, so
that none of the 48 increments wraps, the fade value computed 48 increments later equals
the fade value computed at `c`; and for a 32-bit `c` the two are equal only in that
case. -/
theorem fade_period (c : Nat) (hc : c < U32) :
    (c + 48 < U32 → fade (cnt_incr^[48] c) = fade c) ∧
      (fade (cnt_incr^[48] c) = fade c → c + 48 < U32) := by
  rw [cnt_incr_iterate 48 c hc]
  unfold fade U32 U8 at *
  constructor <;> intro h <;> omega

/-- Witness of C4 (amended) at counter `0`: 48 increments after counter `0` the fade
value is again `0`. -/
theorem fade_period_witness :
    (0 : Nat) < U32 ∧ fade (cnt_incr^[48] 0) = fade 0 ∧ fade 0 = 0 :=
  ⟨by decide, (fade_period 0 (by decide)).1 (by decide), by decide⟩

/-- C5: for every value `x` of the 16-bit latch `ADCdata`, the second call of a pass
through the loop is `rgb_SetColor` at index `7` with the red channel `x mod 256`, and
that byte equals `x` exactly when `x ≤ 255`. -/
theorem red_channel_truncates (s : MainState) (x : Nat) (hx : x < 65536) :
    (main_loop_body s x).2[1]? =
        some (Call.rgb_SetColor 7 { R := x % 256, G := s.foo.G, B := s.foo.B, W := 0 }) ∧
      (x % 256 = x ↔ x ≤ 255) ∧ x % 256 ≤ 255 := by
  refine ⟨rfl, ?_, ?_⟩ <;> omega

/-- Witness of C5 at the sample `300`: the byte written is `44`, not `255`. -/
theorem red_channel_truncates_witness :
    (main_loop_body main_startup.1 300).2[1]? =
        some (Call.rgb_SetColor 7 { R := 44, G := 0, B := 0, W := 0 }) ∧
      ((300 : Nat) % 256 = 300 ↔ (300 : Nat) ≤ 255) ∧ (300 : Nat) % 256 ≤ 255 :=
  red_channel_truncates main_startup.1 300 (by decide)

/-- C7: starting from the initial locals of `main`, for every `n` with `1 ≤ n < 2^32`
and every stream of latched samples, pass `n` through the loop makes exactly the calls
`rgb_SetColor(0, {0,0,0, n mod 48})`, `rgb_SetColor(7, {x mod 256,0,0,0})` with `x` the
sample it reads, `rgb_SendArray()` and `_delay_ms(10)`, in this order; the pass before
it, if any, left `foo.R` at the low byte of its own sample; both indices are below the
strip length. -/
theorem main_iteration_calls (samples : Nat → Nat) (n : Nat) (h1 : 1 ≤ n) (hn : n < U32) :
    main_iteration samples n =
        [Call.rgb_SetColor 0 { R := 0, G := 0, B := 0, W := n % 48 },
          Call.rgb_SetColor 7 { R := samples n % 256, G := 0, B := 0, W := 0 },
          Call.rgb_SendArray, Call.delay_ms 10] ∧
      (2 ≤ n → (main_state_after samples (n - 1)).foo.R = samples (n - 1) % 256) ∧
      0 < NB_LEDS ∧ 7 < NB_LEDS := by
  obtain ⟨m, rfl⟩ : ∃ m, n = m + 1 := ⟨n - 1, by omega⟩
  obtain ⟨hcnt, hG, hB⟩ := main_state_after_inv samples m (by omega)
  have hfade : fade (cnt_incr m) = (m + 1) % 48 := by
    unfold fade cnt_incr U32 U8 at *
    omega
  refine ⟨?_, ?_, by decide, by decide⟩
  · show [Call.rgb_SetColor 0
            { R := 0, G := (main_state_after samples m).foo.G,
              B := (main_state_after samples m).foo.B,
              W := fade (cnt_incr (main_state_after samples m).cnt) },
          Call.rgb_SetColor 7
            { R := red_of_sample (samples (m + 1)), G := (main_state_after samples m).foo.G,
              B := (main_state_after samples m).foo.B, W := 0 },
          Call.rgb_SendArray, Call.delay_ms 10] = _
    rw [hcnt, hG, hB, hfade]
    rfl
  · intro h2
    obtain ⟨j, rfl⟩ : ∃ j, m = j + 1 := ⟨m - 1, by omega⟩
    exact main_state_after_R samples j

/-- Witness of C7: pass `10` with the sample `200` sets LED 0 to `{0,0,0,10}` and LED 7
to `{200,0,0,0}`, then transmits and waits 10 ms. -/
theorem main_iteration_calls_witness :
    (1 ≤ 10 ∧ 10 < U32) ∧
      main_iteration (fun _ => 200) 10 =
        [Call.rgb_SetColor 0 { R := 0, G := 0, B := 0, W := 10 },
          Call.rgb_SetColor 7 { R := 200, G := 0, B := 0, W := 0 },
          Call.rgb_SendArray, Call.delay_ms 10] :=
  ⟨by decide, (main_iteration_calls (fun _ => 200) 10 (by decide) (by decide)).1⟩

/-- C8: the statements of `main` before the loop make exactly the calls
`rgb_SetColor(0, {0,0,0,0})` and `rgb_SendArray()`, in this order, so one transmission
and no delay; played on the frame buffer of 8 colours, the one frame transmitted holds
`{0,0,0,0}` at every index, and the buffer is unchanged. -/
theorem main_startup_dark :
    main_startup.2 =
        [Call.rgb_SetColor 0 { R := 0, G := 0, B := 0, W := 0 }, Call.rgb_SendArray] ∧
      play_calls FrameBuffer.init main_startup.2 =
        some (FrameBuffer.init, [List.replicate 8 { R := 0, G := 0, B := 0, W := 0 }]) ∧
      main_startup.1 = { foo := { R := 0, G := 0, B := 0, W := 0 }, cnt := 0 } := by
  decide

end Stm8RGBW
